import Mathlib

/-!
Verification of the githelper crate (src/lib.rs, src/error.rs): a thin
helper layer around the git2 library exposing `commit`, `init`,
`push_to_origin`, `stage`, `stage_all` and `status`.

The embedding models the git2 collaborator as an explicit repository
state: a working tree (which relative paths exist as regular files or
directories), the staging index (a path-keyed table), the object store
for trees and commits, the resolved HEAD, the configured signature, and
boolean fault flags for each fallible git2 call the crate maps into its
own error enum. Each public function of lib.rs is translated into a
function from this state to a result carrying the successor state.
-/

/-- Relative paths (relative to repo_path), as in lib.rs. -/
abbrev GPath := String

/-- The working tree seen through the filesystem collaborator:
which relative paths exist as regular files and which as directories. -/
structure WorkTree where
  files : List GPath
  dirs : List GPath
deriving Repr, DecidableEq

/-- fullpath.exists(): the path is present as a file or a directory. -/
def WorkTree.pathExists (w : WorkTree) (p : GPath) : Bool :=
  w.files.contains p || w.dirs.contains p

/-- fullpath.is_file(): the path is present as a regular file. -/
def WorkTree.isFile (w : WorkTree) (p : GPath) : Bool :=
  w.files.contains p

/-- Add a directory entry (no-op when already present), as
Repository::init creating the .git marker directory. -/
def WorkTree.addDir (w : WorkTree) (p : GPath) : WorkTree :=
  if w.dirs.contains p then w else { w with dirs := w.dirs ++ [p] }

/-- git signature: identity plus timestamp, as git2::Signature. -/
structure Signature where
  name : String
  email : String
  time : Int
deriving Repr, DecidableEq

/-- A commit object: tree id, parent commit ids, author and committer
signatures, message (git2::Commit as created by Repository::commit). -/
structure GCommit where
  tree : Nat
  parents : List Nat
  author : Signature
  committer : Signature
  message : String
deriving Repr, DecidableEq

/-- The error enum of src/error.rs. Each Rust variant wraps the
underlying git2 error value; the kind is what callers branch on, so the
embedding keeps the kinds. -/
inductive Error where
  | RepositoryInit
  | RepositoryOpen
  | IndexOpen
  | FileStatus
  | IndexWrite
  | RepositorySignature
  | IndexWriteTree
  | RepositoryFindTree
  | RepositoryCommit
  | RepositoryHead
  | IndexAddPath
  | StripRepositoryPrefix
  | NoOriginConfigured
  | RemoteConnect
  | RemotePush
deriving Repr, DecidableEq

/-- The whole observable state a githelper call touches: the repository
on disk plus fault switches for each fallible git2 collaborator call
(a switch set means that call fails, as an I/O or git fault would). -/
structure RepoState where
  /-- a repository marker is present at repo_path (Repository::open succeeds) -/
  initialized : Bool
  workTree : WorkTree
  /-- the staging index: a path-keyed table (git2 Index) -/
  index : List GPath
  /-- tree objects in the object store: id, entry names -/
  trees : List (Nat × List GPath)
  /-- commit objects in the object store: id, commit -/
  commits : List (Nat × GCommit)
  /-- what HEAD currently names, none on an unborn branch -/
  head : Option Nat
  /-- fresh object-id supply -/
  nextId : Nat
  /-- Repository::signature(): none when user.name/user.email are unconfigured -/
  sig : Option Signature
  /-- the remote "origin" is configured -/
  originExists : Bool
  failInit : Bool
  failIndexOpen : Bool
  failWriteTree : Bool
  failFindTree : Bool
  failCommit : Bool
  failIndexWrite : Bool
  failRemoteConnect : Bool
  failRemotePush : Bool
deriving Repr, DecidableEq

/-- Result of a public operation: `Ok(v)` with the repository state it
leaves behind, `Err(e)` likewise (errors abort via `?`, leaving the
state reached so far), or a Rust panic (`unimplemented!`). -/
inductive GitResult (α : Type) where
  | ok : α → RepoState → GitResult α
  | err : Error → RepoState → GitResult α
  | panic : GitResult α
deriving Repr, DecidableEq

/-- Index.add_path upserts the path-keyed entry (the index never holds
two entries with the same path). -/
def addIndex (idx : List GPath) (p : GPath) : List GPath :=
  if idx.contains p then idx else idx ++ [p]

/-- Object-store lookup by id. -/
def lookupObj {β : Type} (store : List (Nat × β)) (i : Nat) : Option β :=
  (store.find? (fun e => e.1 == i)).map (fun e => e.2)

/-- HEAD peeled to a commit: `repository.head()` then `peel_to_commit()`;
none when the branch is unborn or HEAD does not reach a commit object. -/
def resolveHead (s : RepoState) : Option Nat :=
  match s.head with
  | some c => if (lookupObj s.commits c).isSome then some c else none
  | none => none

/-- lib.rs `commit(repo_path, message)`: open the repository, open the
index, `write_tree`, collect the optional HEAD parent (errors of
`head()`/`peel_to_commit()` are swallowed by the `if let Ok` chain),
`find_tree`, `signature`, then `Repository::commit` updating "HEAD".
The index is not modified at any point. -/
def commit (s : RepoState) (message : String) : GitResult Unit :=
  if !s.initialized then .err .RepositoryOpen s
  else if s.failIndexOpen then .err .IndexOpen s
  else if s.failWriteTree then .err .IndexWriteTree s
  else
    let treeId := s.nextId
    let s1 : RepoState := { s with trees := s.trees ++ [(treeId, s.index)] }
    let parents : List Nat := match resolveHead s with
      | some c => [c]
      | none => []
    if s.failFindTree then .err .RepositoryFindTree s1
    else match s.sig with
      | none => .err .RepositorySignature s1
      | some g =>
        if s.failCommit then .err .RepositoryCommit s1
        else
          let cid := treeId + 1
          let c : GCommit :=
            { tree := treeId, parents := parents, author := g,
              committer := g, message := message }
          .ok () { s1 with commits := s1.commits ++ [(cid, c)],
                           head := some cid, nextId := cid + 1 }

/-- lib.rs `init(repo_path)`: delegates to Repository::init, which
creates the marker directory when absent and reinitializes (without
error and without touching objects or references) when one is already
present; it fails only on an underlying git/filesystem fault. -/
def init (s : RepoState) : GitResult Unit :=
  if s.failInit then .err .RepositoryInit s
  else .ok () { s with initialized := true,
                       workTree := s.workTree.addDir ".git" }

/-- lib.rs `push_to_origin(repo_path)`: open, find the remote "origin"
(any failure mapped to NoOriginConfigured), connect, then push the
hard-coded refspec list. On success the value records the refspecs
pushed. -/
def push_to_origin (s : RepoState) : GitResult (List String) :=
  if !s.initialized then .err .RepositoryOpen s
  else if !s.originExists then .err .NoOriginConfigured s
  else if s.failRemoteConnect then .err .RemoteConnect s
  else if s.failRemotePush then .err .RemotePush s
  else .ok ["refs/heads/master:refs/heads/master"] s

/-- lib.rs `stage(repo_path, paths)`: open the repository and index,
keep the input paths that exist as regular files, then keep those equal
to ".git" (the second filter as written in the source compares with
`==`), add_path each survivor, and write the index. -/
def stage (s : RepoState) (paths : List GPath) : GitResult Unit :=
  if !s.initialized then .err .RepositoryOpen s
  else if s.failIndexOpen then .err .IndexOpen s
  else
    let kept :=
      (paths.filter (fun p =>
        s.workTree.pathExists p && s.workTree.isFile p)).filter
        (fun p => p == ".git")
    let idx := kept.foldl addIndex s.index
    if s.failIndexWrite then .err .IndexWrite s
    else .ok () { s with index := idx }

/-- WalkDir over repo_path: every entry of the working tree, the root
itself excluded, with the repo_path prefix stripped. -/
def walkEntries (w : WorkTree) : List GPath :=
  w.dirs ++ w.files

/-- lib.rs `stage_all(repo_path)`: walk the working tree, drop the root
entry, strip the repo_path prefix from each path, and hand the whole
list to `stage`. -/
def stage_all (s : RepoState) : GitResult Unit :=
  stage s (walkEntries s.workTree)

/-- lib.rs `status(repo_path)`: the body is `unimplemented!()`, which
panics unconditionally. -/
def status (_s : RepoState) : GitResult Unit :=
  .panic

/-- A default signature for concrete states. -/
def sig0 : Signature :=
  { name := "user", email := "user@example.com", time := 0 }

/-- A blank, uninitialized location with no collaborator faults. -/
def blankState : RepoState :=
  { initialized := false
    workTree := { files := [], dirs := [] }
    index := []
    trees := []
    commits := []
    head := none
    nextId := 0
    sig := some sig0
    originExists := false
    failInit := false
    failIndexOpen := false
    failWriteTree := false
    failFindTree := false
    failCommit := false
    failIndexWrite := false
    failRemoteConnect := false
    failRemotePush := false }

/-- A freshly initialized repository: marker directory present, empty
index, no commits, unborn HEAD. -/
def freshRepo : RepoState :=
  { blankState with initialized := true,
                    workTree := { files := [], dirs := [".git"] } }

/-- A fresh repository whose working tree holds one regular file. -/
def repoWithFile : RepoState :=
  { freshRepo with workTree := { files := ["a.txt"], dirs := [".git"] } }

/-- repoWithFile with "a.txt" staged in the index. -/
def stagedRepo : RepoState :=
  { repoWithFile with index := ["a.txt"] }

/-- The state commit leaves behind on stagedRepo. -/
def stagedRepoAfter : RepoState :=
  { stagedRepo with
      trees := [(0, ["a.txt"])]
      commits := [(1, { tree := 0, parents := [], author := sig0,
                        committer := sig0, message := "m" })]
      head := some 1
      nextId := 2 }

/-- stagedRepo with the find_tree collaborator call faulted. -/
def findTreeFailRepo : RepoState :=
  { stagedRepo with failFindTree := true }

/-- The state the faulted commit leaves behind: the tree written by
write_tree persists, nothing else changed. -/
def findTreeFailAfter : RepoState :=
  { findTreeFailRepo with trees := [(0, ["a.txt"])] }

/-- A fresh repository with an "origin" remote configured. -/
def pushRepo : RepoState :=
  { freshRepo with originExists := true }

/-- Projection: the refspecs a successful push reported. -/
def pushedRefs : GitResult (List String) → Option (List String)
  | .ok r _ => some r
  | .err _ _ => none
  | .panic => none

/-- Projection: the index of the state a run left behind. -/
def resultIndex : GitResult Unit → Option (List GPath)
  | .ok _ s => some s.index
  | .err _ s => some s.index
  | .panic => none

/-- Projection: whether a run succeeded. -/
def resultIsOk {α : Type} : GitResult α → Bool
  | .ok _ _ => true
  | .err _ _ => false
  | .panic => false

/-- Projection: a run panicked. -/
def resultIsPanic {α : Type} : GitResult α → Bool
  | .panic => true
  | .ok _ _ => false
  | .err _ _ => false

lemma commit_not_panic (s : RepoState) (msg : String) :
    commit s msg ≠ GitResult.panic := by
  unfold commit
  repeat' split
  all_goals simp

lemma init_not_panic (s : RepoState) : init s ≠ GitResult.panic := by
  unfold init
  split <;> simp

lemma push_not_panic (s : RepoState) : push_to_origin s ≠ GitResult.panic := by
  unfold push_to_origin
  repeat' split
  all_goals simp

lemma stage_not_panic (s : RepoState) (ps : List GPath) :
    stage s ps ≠ GitResult.panic := by
  unfold stage
  repeat' split
  all_goals simp

lemma stage_all_not_panic (s : RepoState) :
    stage_all s ≠ GitResult.panic := by
  unfold stage_all
  exact stage_not_panic s (walkEntries s.workTree)

lemma resultIsPanic_eq_false {α : Type} (r : GitResult α)
    (h : r ≠ GitResult.panic) : resultIsPanic r = false := by
  cases r <;> simp_all [resultIsPanic]

lemma commit_ok_spec (s s' : RepoState) (msg : String) (u : Unit)
    (h : commit s msg = GitResult.ok u s') :
    ∃ g, s.sig = some g ∧
      s' = { s with
        trees := s.trees ++ [(s.nextId, s.index)]
        commits := s.commits ++ [(s.nextId + 1,
          { tree := s.nextId, parents := (resolveHead s).toList,
            author := g, committer := g, message := msg })]
        head := some (s.nextId + 1)
        nextId := s.nextId + 2 } := by
  unfold commit at h
  repeat' split at h
  any_goals exact GitResult.noConfusion h
  all_goals simp only [GitResult.ok.injEq] at h
  all_goals obtain ⟨-, rfl⟩ := h
  all_goals refine ⟨_, by assumption, ?_⟩
  all_goals simp_all [Option.toList]

lemma commit_ok_of_flags (s : RepoState) (msg : String) (g : Signature)
    (hin : s.initialized = true) (h1 : s.failIndexOpen = false)
    (h2 : s.failWriteTree = false) (h3 : s.failFindTree = false)
    (h4 : s.failCommit = false) (hg : s.sig = some g) :
    commit s msg = GitResult.ok ()
      { s with
        trees := s.trees ++ [(s.nextId, s.index)]
        commits := s.commits ++ [(s.nextId + 1,
          { tree := s.nextId, parents := (resolveHead s).toList,
            author := g, committer := g, message := msg })]
        head := some (s.nextId + 1)
        nextId := s.nextId + 2 } := by
  unfold commit
  simp only [hin, h1, h2, h3, h4, hg, Bool.not_true, Bool.false_eq_true,
    if_false]
  cases hr : resolveHead s <;> simp [hr, Option.toList]

lemma stage_ok_of_flags (s : RepoState) (ps : List GPath)
    (hin : s.initialized = true) (h1 : s.failIndexOpen = false)
    (h2 : s.failIndexWrite = false) :
    stage s ps = GitResult.ok ()
      { s with index :=
          ((ps.filter (fun p =>
            s.workTree.pathExists p && s.workTree.isFile p)).filter
              (fun p => p == ".git")).foldl addIndex s.index } := by
  unfold stage
  simp [hin, h1, h2]

lemma lookupObj_append_isSome {β : Type} (l : List (Nat × β)) (i : Nat)
    (x : β) : (lookupObj (l ++ [(i, x)]) i).isSome = true := by
  simp only [lookupObj]
  cases hf : List.find? (fun e => e.1 == i) (l ++ [(i, x)]) with
  | some v => simp
  | none =>
    exfalso
    have hm := List.find?_eq_none.mp hf (i, x) (by simp)
    simp at hm

/-- Claim C1: stated — stage adds to the index exactly the input paths
that exist as regular files, excluding .git-prefixed entries. Failing
input: the second filter in `stage` keeps only paths equal to ".git"
instead of excluding them, so an existing regular file handed to
`stage` is never added: on a repository whose working tree holds the
regular file "a.txt", staging ["a.txt"] succeeds but leaves the index
empty. -/
theorem c1_stage_adds_no_regular_file :
    repoWithFile.workTree.isFile "a.txt" = true ∧
    stage repoWithFile ["a.txt"] = GitResult.ok () repoWithFile ∧
    repoWithFile.index = [] := by
  refine ⟨by decide, by decide, by decide⟩

/-- Claim C2, counterexample: `status` is `unimplemented!()` and panics
on every input, so not every public operation returns a success value
or an error kind. -/
theorem c2_status_panics : status blankState = GitResult.panic := rfl

/-- Claim C2, amended: every public operation except `status` returns
either a success value or one specific kind of the error enum and never
panics; `status` is unimplemented and panics on every input. -/
theorem c2_no_panic_except_status :
    (∀ s msg, resultIsPanic (commit s msg) = false) ∧
    (∀ s, resultIsPanic (init s) = false) ∧
    (∀ s, resultIsPanic (push_to_origin s) = false) ∧
    (∀ s ps, resultIsPanic (stage s ps) = false) ∧
    (∀ s, resultIsPanic (stage_all s) = false) ∧
    (∀ s, status s = GitResult.panic) :=
  ⟨fun s msg => resultIsPanic_eq_false _ (commit_not_panic s msg),
   fun s => resultIsPanic_eq_false _ (init_not_panic s),
   fun s => resultIsPanic_eq_false _ (push_not_panic s),
   fun s ps => resultIsPanic_eq_false _ (stage_not_panic s ps),
   fun s => resultIsPanic_eq_false _ (stage_all_not_panic s),
   fun _ => rfl⟩

/-- Claim C3, counterexample: `init` on a path that already holds a
repository (with a commit in its store) returns Ok with the state
unchanged, rather than failing with an AlreadyExists error — the error
enum has no such kind at all. -/
theorem c3_reinit_returns_ok :
    init stagedRepoAfter = GitResult.ok () stagedRepoAfter ∧
    stagedRepoAfter.initialized = true ∧
    stagedRepoAfter.commits ≠ [] := by
  refine ⟨by decide, by decide, by decide⟩

/-- Claim C3, amended: calling `init` on an already-initialized path
succeeds (git reinitializes; there is no AlreadyExists error kind) and
leaves the existing objects and references unchanged, provided the
underlying git init call itself does not fault. -/
theorem c3_reinit_preserves_repo (s : RepoState)
    (hin : s.initialized = true) (hf : s.failInit = false) :
    ∃ s', init s = GitResult.ok () s' ∧ s'.commits = s.commits ∧
      s'.trees = s.trees ∧ s'.head = s.head ∧ s'.index = s.index ∧
      s'.initialized = true := by
  refine ⟨{ s with initialized := true, workTree := s.workTree.addDir ".git" }, ?_, rfl, rfl, rfl, rfl, rfl⟩
  unfold init
  rw [hf]
  simp

/-- Witness for C3 at a concrete already-initialized repository. -/
theorem c3_reinit_witness :
    ∃ s', init stagedRepoAfter = GitResult.ok () s' ∧
      s'.commits = stagedRepoAfter.commits ∧
      s'.trees = stagedRepoAfter.trees ∧
      s'.head = stagedRepoAfter.head ∧
      s'.index = stagedRepoAfter.index ∧
      s'.initialized = true :=
  c3_reinit_preserves_repo stagedRepoAfter (by decide) (by decide)

/-- Claim C4, counterexample: on a repository with "a.txt" staged,
`commit` succeeds and the index afterwards still holds "a.txt" — the
code never calls any index-clearing operation, so the staging table is
not emptied. -/
theorem c4_commit_does_not_clear_index :
    resultIsOk (commit stagedRepo "m") = true ∧
    resultIndex (commit stagedRepo "m") = some ["a.txt"] ∧
    stagedRepo.index = ["a.txt"] := by
  refine ⟨by decide, by decide, by decide⟩

/-- Claim C4, amended: after every successful call to `commit` the
index is left exactly as it was — commit writes the tree and creates
the commit object but performs no clear, so the staging table keeps its
entries. -/
theorem c4_commit_leaves_index_unchanged (s s' : RepoState) (msg : String)
    (u : Unit) (h : commit s msg = GitResult.ok u s') :
    s'.index = s.index := by
  obtain ⟨g, hg, rfl⟩ := commit_ok_spec s s' msg u h
  rfl

/-- Witness for C4 at a concrete staged repository. -/
theorem c4_commit_index_witness : stagedRepoAfter.index = stagedRepo.index :=
  c4_commit_leaves_index_unchanged stagedRepo stagedRepoAfter "m" ()
    (by decide)

/-- Claim C5: commit tolerates the unborn-HEAD case. Whenever the
repository opens and the collaborator calls succeed, commit succeeds
and appends one new commit whose parent list is empty when HEAD does
not resolve to a commit and is exactly [p] when HEAD resolves to the
commit p. -/
theorem c5_commit_parents_follow_head (s : RepoState) (msg : String)
    (g : Signature) (hin : s.initialized = true)
    (h1 : s.failIndexOpen = false) (h2 : s.failWriteTree = false)
    (h3 : s.failFindTree = false) (h4 : s.failCommit = false)
    (hg : s.sig = some g) :
    ∃ s' cid c, commit s msg = GitResult.ok () s' ∧
      s'.commits = s.commits ++ [(cid, c)] ∧
      c.parents = (resolveHead s).toList ∧
      (resolveHead s = none → c.parents = []) ∧
      (∀ p, resolveHead s = some p → c.parents = [p]) := by
  refine ⟨_, s.nextId + 1,
    { tree := s.nextId, parents := (resolveHead s).toList,
      author := g, committer := g, message := msg },
    commit_ok_of_flags s msg g hin h1 h2 h3 h4 hg, rfl, rfl, ?_, ?_⟩
  · intro hr
    rw [hr]
    rfl
  · intro p hr
    rw [hr]
    rfl

/-- Witness for C5 on a fresh repository with unborn HEAD. -/
theorem c5_unborn_witness :
    ∃ s' cid c, commit freshRepo "m" = GitResult.ok () s' ∧
      s'.commits = freshRepo.commits ++ [(cid, c)] ∧
      c.parents = (resolveHead freshRepo).toList ∧
      (resolveHead freshRepo = none → c.parents = []) ∧
      (∀ p, resolveHead freshRepo = some p → c.parents = [p]) :=
  c5_commit_parents_follow_head freshRepo "m" sig0 rfl rfl rfl rfl rfl rfl

/-- Claim C6: when a step after write_tree fails (finding the tree,
obtaining the signature, or creating the commit object), the state the
failed commit leaves behind has the index unmodified. -/
theorem c6_commit_error_keeps_index (s s' : RepoState) (msg : String)
    (e : Error) (h : commit s msg = GitResult.err e s')
    (hafter : e = Error.RepositoryFindTree ∨ e = Error.RepositorySignature ∨
      e = Error.RepositoryCommit) :
    s'.index = s.index := by
  unfold commit at h
  repeat' split at h
  any_goals exact GitResult.noConfusion h
  all_goals simp only [GitResult.err.injEq] at h
  all_goals obtain ⟨rfl, rfl⟩ := h
  all_goals rfl

/-- Witness for C6: the find_tree step faulted on a staged repository. -/
theorem c6_find_tree_fail_witness :
    findTreeFailAfter.index = findTreeFailRepo.index :=
  c6_commit_error_keeps_index findTreeFailRepo findTreeFailAfter "m"
    Error.RepositoryFindTree (by decide) (Or.inl rfl)

/-- Claim C7: staging a path that does not exist succeeds (skip, not
abort), and on a fresh repository a subsequent commit succeeds and
creates a commit whose tree object has no entries. -/
theorem c7_stage_missing_skip_empty_commit (s : RepoState) (p : GPath)
    (msg : String) (hin : s.initialized = true)
    (hmiss : s.workTree.pathExists p = false)
    (hidx : s.index = []) (htr : s.trees = []) (hcm : s.commits = [])
    (g : Signature) (hg : s.sig = some g)
    (h1 : s.failIndexOpen = false) (h2 : s.failIndexWrite = false)
    (h3 : s.failWriteTree = false) (h4 : s.failFindTree = false)
    (h5 : s.failCommit = false) :
    ∃ s', stage s [p] = GitResult.ok () s' ∧ s'.index = [] ∧
      ∃ s'' cid c, commit s' msg = GitResult.ok () s'' ∧
        s''.commits = [(cid, c)] ∧
        lookupObj s''.trees c.tree = some [] := by
  have hf : (s.workTree.pathExists p && s.workTree.isFile p) = false := by
    rw [hmiss]
    rfl
  have hs : stage s [p] = GitResult.ok () s := by
    rw [stage_ok_of_flags s [p] hin h1 h2]
    simp [hf]
  refine ⟨s, hs, hidx, _, s.nextId + 1,
    { tree := s.nextId, parents := (resolveHead s).toList,
      author := g, committer := g, message := msg },
    commit_ok_of_flags s msg g hin h1 h3 h4 h5 hg, ?_, ?_⟩
  · simp [hcm]
  · show lookupObj (s.trees ++ [(s.nextId, s.index)]) s.nextId = some []
    rw [htr, hidx]
    simp [lookupObj]

/-- Witness for C7 on a fresh repository and the path "missing.txt". -/
theorem c7_missing_path_witness :
    ∃ s', stage freshRepo ["missing.txt"] = GitResult.ok () s' ∧
      s'.index = [] ∧
      ∃ s'' cid c, commit s' "x" = GitResult.ok () s'' ∧
        s''.commits = [(cid, c)] ∧
        lookupObj s''.trees c.tree = some [] :=
  c7_stage_missing_skip_empty_commit freshRepo "missing.txt" "x" rfl
    (by decide) rfl rfl rfl sig0 rfl rfl rfl rfl rfl rfl

/-- Claim C8: after every successful commit the HEAD reference resolves
to the id of the newly created commit, and on a freshly initialized
repository with no commits HEAD does not resolve to any commit. -/
theorem c8_head_points_to_new_commit :
    (∀ s s' msg u, commit s msg = GitResult.ok u s' →
      ∃ cid c, s'.commits = s.commits ++ [(cid, c)] ∧
        s'.head = some cid ∧ resolveHead s' = some cid) ∧
    (∀ t, init blankState = GitResult.ok () t → resolveHead t = none) := by
  constructor
  · intro s s' msg u h
    obtain ⟨g, hg, rfl⟩ := commit_ok_spec s s' msg u h
    refine ⟨s.nextId + 1, _, rfl, rfl, ?_⟩
    simp [resolveHead, lookupObj_append_isSome]
  · intro t ht
    obtain ⟨-, rfl⟩ := GitResult.ok.inj ht
    rfl

/-- Witness for C8: a concrete commit updates HEAD to the new id, and a
concrete fresh initialization leaves HEAD unresolvable. -/
theorem c8_witness :
    (∃ cid c, stagedRepoAfter.commits = stagedRepo.commits ++ [(cid, c)] ∧
      stagedRepoAfter.head = some cid ∧
      resolveHead stagedRepoAfter = some cid) ∧
    resolveHead { blankState with initialized := true, workTree := blankState.workTree.addDir ".git" } = none :=
  ⟨c8_head_points_to_new_commit.1 stagedRepo stagedRepoAfter "m" ()
    (by decide),
   c8_head_points_to_new_commit.2 _ (by decide)⟩

/-- Claim C9: push_to_origin pushes exactly the fixed refspec
refs/heads/master:refs/heads/master, no matter what HEAD names. -/
theorem c9_push_fixed_master_refspec :
    (∀ s refs s', push_to_origin s = GitResult.ok refs s' →
      refs = ["refs/heads/master:refs/heads/master"]) ∧
    (∀ (s : RepoState) (h : Option Nat) refs s',
      push_to_origin { s with head := h } = GitResult.ok refs s' →
      refs = ["refs/heads/master:refs/heads/master"]) := by
  have main : ∀ s refs s', push_to_origin s = GitResult.ok refs s' →
      refs = ["refs/heads/master:refs/heads/master"] := by
    intro s refs s' hp
    unfold push_to_origin at hp
    repeat' split at hp
    any_goals exact GitResult.noConfusion hp
    exact ((GitResult.ok.inj hp).1).symm
  exact ⟨main, fun s h => main { s with head := h }⟩

/-- Witness for C9 at a repository with origin configured. -/
theorem c9_push_witness :
    (["refs/heads/master:refs/heads/master"] : List String) =
      ["refs/heads/master:refs/heads/master"] :=
  c9_push_fixed_master_refspec.1 pushRepo
    ["refs/heads/master:refs/heads/master"] pushRepo (by decide)

/-- Claim C10: every commit the commit operation creates uses the same
signature for author and committer. -/
theorem c10_author_equals_committer (s s' : RepoState) (msg : String)
    (u : Unit) (h : commit s msg = GitResult.ok u s') :
    ∃ cid c, s'.commits = s.commits ++ [(cid, c)] ∧
      c.author = c.committer := by
  obtain ⟨g, hg, rfl⟩ := commit_ok_spec s s' msg u h
  exact ⟨s.nextId + 1, _, rfl, rfl⟩

/-- Witness for C10 at a concrete staged repository. -/
theorem c10_signature_witness :
    ∃ cid c, stagedRepoAfter.commits = stagedRepo.commits ++ [(cid, c)] ∧
      c.author = c.committer :=
  c10_author_equals_committer stagedRepo stagedRepoAfter "m" () (by decide)
